import Mathlib

/-!
Verification of the tone-file writer in `src/tools/create_test_audio.py`.

The script computes `N = int(sample_rate * duration)` samples of
`math.sin(2 * math.pi * frequency * i / sample_rate)`, quantizes each with
`int(sample * 32767)` (Python `int` truncates toward zero) and serializes
them as little-endian signed 16-bit integers into a mono WAV container
written by the stdlib `wave` module.

Floats are modelled by real numbers (for the sine computation) and by
rationals (for the sample count, where only field arithmetic occurs).
The source fixes `sample_rate = 44100`, `duration = 3`, `frequency = 440`
as constants; the specification directs that these, together with the
output path, be a caller-settable configuration surface, so the writer
below takes a `ToneSpec` and a path as arguments.  Parts of the behavior
that are not in `src/` (the validation of the configuration surface and
the byte layout produced by the stdlib `wave` module) are modelled from
the spec and marked as such in their doc comments.
-/

/-- The configuration surface of the tone writer: `sampleRate` (a positive
integer in the spec data model), `durationSeconds` and `frequencyHz`. -/
structure ToneSpec where
  sampleRate : ℤ
  durationSeconds : ℚ
  frequencyHz : ℚ

/-- Python `int()` conversion on a rational value: truncation toward zero. -/
def pyIntQ (x : ℚ) : ℤ := if 0 ≤ x then ⌊x⌋ else ⌈x⌉

/-- Python `int()` conversion on a real value: truncation toward zero. -/
noncomputable def pyInt (x : ℝ) : ℤ := if 0 ≤ x then ⌊x⌋ else ⌈x⌉

/-- Sample count, from `range(int(sample_rate * duration))` in the source:
Python `int()` truncation, and `range` of a negative bound is empty. -/
def numSamples (s : ToneSpec) : ℕ :=
  (pyIntQ ((s.sampleRate : ℚ) * s.durationSeconds)).toNat

/-- One sine sample, from
`math.sin(2 * math.pi * frequency * i / sample_rate)` in the source. -/
noncomputable def sineSample (s : ToneSpec) (i : ℕ) : ℝ :=
  Real.sin (2 * Real.pi * (s.frequencyHz : ℝ) * (i : ℝ) / ((s.sampleRate : ℤ) : ℝ))

/-- Quantization as the source performs it: `int(sample * 32767)`,
truncation toward zero of the scaled amplitude. -/
noncomputable def quantize (x : ℝ) : ℤ := pyInt (x * 32767)

/-- Quantization as the spec describes it, for comparison with `quantize`:
`q(i) = round(s(i) * 32767)`, round to nearest. -/
noncomputable def quantizeRound (x : ℝ) : ℤ := round (x * 32767)

/-- The quantized PCM sample sequence generated by the loop in the source. -/
noncomputable def toneSamples (s : ToneSpec) : List ℤ :=
  (List.range (numSamples s)).map (fun i => quantize (sineSample s i))

/-- Little-endian serialization of one signed 16-bit sample, as
`struct.pack` with format `h` does (two bytes, two-complement). -/
def int16le (z : ℤ) : List ℕ :=
  [(z % 65536).toNat % 256, (z % 65536).toNat / 256]

/-- Little-endian 16-bit unsigned field of the WAV header. -/
def u16le (n : ℕ) : List ℕ := [n % 256, n / 256 % 256]

/-- Little-endian 32-bit unsigned field of the WAV header. -/
def u32le (n : ℕ) : List ℕ :=
  [n % 256, n / 256 % 256, n / 65536 % 256, n / 16777216 % 256]

/-- Modelled from the spec: the standard RIFF/WAVE header that the stdlib
`wave` module (not part of `src/`) writes for the field values the source
sets: channels = 1, sample width = 2 bytes (16 bits), sample rate as given,
byte rate = sampleRate * 2, block align = 2, followed by the data chunk
header for `2 * N` PCM bytes. -/
def wavHeader (s : ToneSpec) : List ℕ :=
  [82, 73, 70, 70] ++ u32le (36 + 2 * numSamples s) ++
  [87, 65, 86, 69, 102, 109, 116, 32] ++ u32le 16 ++
  u16le 1 ++ u16le 1 ++ u32le s.sampleRate.toNat ++
  u32le (s.sampleRate.toNat * 2) ++ u16le 2 ++ u16le 16 ++
  [100, 97, 116, 97] ++ u32le (2 * numSamples s)

/-- The PCM data section: every sample serialized little-endian in index
order, from `struct.pack('<%dh' % len(samples), *samples)` in the source. -/
noncomputable def pcmData (s : ToneSpec) : List ℕ :=
  (toneSamples s).flatMap int16le

/-- The full byte sequence of the produced WAV file. -/
noncomputable def wavBytes (s : ToneSpec) : List ℕ :=
  wavHeader s ++ pcmData s

/-- The two error kinds of the spec. -/
inductive WriterError where
  | invalidArgument : WriterError
  | filesystemError : WriterError

/-- A filesystem: a map from paths to file contents. -/
def FS : Type := String → Option (List ℕ)

/-- The empty filesystem. -/
def fsEmpty : FS := fun _ => none

/-- Modelled from the spec: the writer invocation over the configuration
surface.  The source fixes the spec fields as constants and has no
validation; the spec directs that sampleRate, durationSeconds and
frequencyHz be caller-settable together with the output path, and that a
non-positive field fail with InvalidArgument writing no file.  The
generation core (`wavBytes`) is translated from the source. -/
noncomputable def createTestAudio (s : ToneSpec) (path : String) (fs : FS) :
    Option WriterError × FS :=
  if 0 < s.sampleRate ∧ 0 < s.durationSeconds ∧ 0 < s.frequencyHz then
    (none, fun p => if p = path then some (wavBytes s) else fs p)
  else
    (some WriterError.invalidArgument, fs)

/-- Read a little-endian 16-bit unsigned field at a byte offset. -/
def readU16 (b : List ℕ) (off : ℕ) : Option ℕ :=
  match b[off]?, b[off + 1]? with
  | some x, some y => some (x + 256 * y)
  | _, _ => none

/-- Read a little-endian 32-bit unsigned field at a byte offset. -/
def readU32 (b : List ℕ) (off : ℕ) : Option ℕ :=
  match b[off]?, b[off + 1]?, b[off + 2]?, b[off + 3]? with
  | some x, some y, some z, some w =>
      some (x + 256 * y + 65536 * z + 16777216 * w)
  | _, _, _, _ => none

/-- Decode the channel count field of a WAV byte sequence (offset 22). -/
def decodeChannels (b : List ℕ) : Option ℕ := readU16 b 22

/-- Decode the sample rate field of a WAV byte sequence (offset 24). -/
def decodeSampleRate (b : List ℕ) : Option ℕ := readU32 b 24

/-- Decode the bits-per-sample field of a WAV byte sequence (offset 34). -/
def decodeBitsPerSample (b : List ℕ) : Option ℕ := readU16 b 34

-- Basic facts

theorem pyIntQ_pos_eq_floor (x : ℚ) (h : 0 ≤ x) : pyIntQ x = ⌊x⌋ := by
  simp [pyIntQ, h]

theorem numSamples_toneSamples_length (s : ToneSpec) :
    (toneSamples s).length = numSamples s := by
  simp [toneSamples]

theorem int16le_length (z : ℤ) : (int16le z).length = 2 := rfl

theorem pcmData_length (s : ToneSpec) :
    (pcmData s).length = 2 * numSamples s := by
  unfold pcmData
  rw [← numSamples_toneSamples_length]
  induction toneSamples s with
  | nil => simp
  | cons a l ih => simp [List.flatMap_cons, int16le, ih]; ring

/-- C2: for every valid spec the number of generated PCM samples is
`floor(sampleRate * durationSeconds)`. -/
theorem sample_count_eq_floor (s : ToneSpec)
    (hr : 0 < s.sampleRate) (hd : 0 < s.durationSeconds) :
    (numSamples s : ℤ) = ⌊(s.sampleRate : ℚ) * s.durationSeconds⌋ := by
  have hprod : 0 ≤ (s.sampleRate : ℚ) * s.durationSeconds := by
    have h1 : (0 : ℚ) ≤ (s.sampleRate : ℚ) := by exact_mod_cast hr.le
    exact mul_nonneg h1 hd.le
  have hfl : 0 ≤ ⌊(s.sampleRate : ℚ) * s.durationSeconds⌋ :=
    Int.floor_nonneg.mpr hprod
  simp [numSamples, pyIntQ_pos_eq_floor _ hprod, Int.toNat_of_nonneg hfl]

/-- C2 witness: at sampleRate 44100, duration 3, the count is the floor. -/
theorem sample_count_eq_floor_witness :
    (0 : ℤ) < 44100 ∧ (0 : ℚ) < 3 ∧
      (numSamples ⟨44100, 3, 440⟩ : ℤ) = ⌊((44100 : ℤ) : ℚ) * (3 : ℚ)⌋ :=
  ⟨by norm_num, by norm_num,
    sample_count_eq_floor ⟨44100, 3, 440⟩ (by norm_num) (by norm_num)⟩

theorem numSamples_44100_3 : numSamples ⟨44100, 3, 440⟩ = 132300 := by
  norm_num [numSamples, pyIntQ]; rfl

/-- C5: the default spec (44100 Hz, 3 s, 440 Hz) produces exactly 132300
samples and a PCM data section of exactly 264600 bytes. -/
theorem default_spec_counts :
    (toneSamples ⟨44100, 3, 440⟩).length = 132300 ∧
      (pcmData ⟨44100, 3, 440⟩).length = 264600 := by
  constructor
  · rw [numSamples_toneSamples_length, numSamples_44100_3]
  · rw [pcmData_length, numSamples_44100_3]

theorem sineSample_zero (s : ToneSpec) : sineSample s 0 = 0 := by
  simp [sineSample]

theorem quantize_zero : quantize 0 = 0 := by
  simp [quantize, pyInt]

/-- C10: whenever at least one sample is generated, the first quantized
sample is exactly zero, since sin 0 = 0 and quantizing 0 yields 0. -/
theorem first_sample_zero (s : ToneSpec) (h : 1 ≤ numSamples s) :
    (toneSamples s)[0]? = some 0 := by
  have h0 : 0 < numSamples s := h
  simp [toneSamples, List.getElem?_map, List.getElem?_range h0,
    sineSample_zero, quantize_zero]

/-- C10 witness: the default spec generates a sample and starts at 0. -/
theorem first_sample_zero_witness :
    1 ≤ numSamples ⟨44100, 3, 440⟩ ∧
      (toneSamples ⟨44100, 3, 440⟩)[0]? = some 0 := by
  have h : 1 ≤ numSamples ⟨44100, 3, 440⟩ := by rw [numSamples_44100_3]; omega
  exact ⟨h, first_sample_zero ⟨44100, 3, 440⟩ h⟩

theorem pyInt_le_of_le (x : ℝ) (b : ℤ) (h : x ≤ b) : pyInt x ≤ b := by
  unfold pyInt
  split
  · have := Int.floor_le_floor h
    rwa [Int.floor_intCast] at this
  · exact Int.ceil_le.mpr h

theorem pyInt_ge_of_ge (x : ℝ) (a : ℤ) (ha : a ≤ 0) (h : (a : ℝ) ≤ x) :
    a ≤ pyInt x := by
  unfold pyInt
  split
  · exact le_trans ha (Int.floor_nonneg.mpr (by assumption))
  · have := Int.ceil_le_ceil h
    rwa [Int.ceil_intCast] at this

/-- C3: every quantized sample lies within [-32767, 32767]; in particular
packing it as a signed 16-bit integer cannot fail. -/
theorem sample_in_range (s : ToneSpec) (q : ℤ) (hq : q ∈ toneSamples s) :
    -32767 ≤ q ∧ q ≤ 32767 := by
  unfold toneSamples at hq
  obtain ⟨i, _, rfl⟩ := List.mem_map.mp hq
  have hs1 : sineSample s i ≤ 1 := Real.sin_le_one _
  have hs2 : -1 ≤ sineSample s i := Real.neg_one_le_sin _
  constructor
  · refine pyInt_ge_of_ge _ _ (by norm_num) ?_
    push_cast
    nlinarith
  · refine pyInt_le_of_le _ _ ?_
    push_cast
    nlinarith

theorem toneSamples_1_1_1 : toneSamples ⟨1, 1, 1⟩ = [0] := by
  have hn : numSamples ⟨1, 1, 1⟩ = 1 := by norm_num [numSamples, pyIntQ]
  rw [toneSamples, hn, show List.range 1 = [0] from rfl]
  simp [sineSample_zero, quantize_zero]

/-- C3 witness: the sample 0 generated by spec (1, 1, 1) is in range. -/
theorem sample_in_range_witness :
    (0 : ℤ) ∈ toneSamples ⟨1, 1, 1⟩ ∧ (-32767 : ℤ) ≤ 0 ∧ (0 : ℤ) ≤ 32767 := by
  have hmem : (0 : ℤ) ∈ toneSamples ⟨1, 1, 1⟩ := by
    rw [toneSamples_1_1_1]; exact List.mem_singleton.mpr rfl
  exact ⟨hmem, sample_in_range ⟨1, 1, 1⟩ 0 hmem⟩

theorem sineSample_8_1_1 : sineSample ⟨8, 1, 1⟩ 1 = Real.sqrt 2 / 2 := by
  show Real.sin (2 * Real.pi * ((1 : ℚ) : ℝ) * ((1 : ℕ) : ℝ) / (((8 : ℤ) : ℤ) : ℝ)) = _
  rw [show (2 * Real.pi * ((1 : ℚ) : ℝ) * ((1 : ℕ) : ℝ) / (((8 : ℤ) : ℤ) : ℝ))
      = Real.pi / 4 by push_cast; ring]
  exact Real.sin_pi_div_four

theorem quantize_sqrt2_div_two : quantize (Real.sqrt 2 / 2) = 23169 := by
  have h2 : Real.sqrt 2 ^ 2 = 2 := Real.sq_sqrt (by norm_num)
  have hnn : (0 : ℝ) ≤ Real.sqrt 2 := Real.sqrt_nonneg 2
  have hlb : (46339 : ℝ) ≤ 32767 * Real.sqrt 2 := by nlinarith
  have hub : 32767 * Real.sqrt 2 < 46340 := by nlinarith
  unfold quantize pyInt
  rw [if_pos (by positivity), Int.floor_eq_iff]
  constructor <;> push_cast <;> linarith

theorem quantizeRound_sqrt2_div_two : quantizeRound (Real.sqrt 2 / 2) = 23170 := by
  have h2 : Real.sqrt 2 ^ 2 = 2 := Real.sq_sqrt (by norm_num)
  have hnn : (0 : ℝ) ≤ Real.sqrt 2 := Real.sqrt_nonneg 2
  have hlb : (46339 : ℝ) ≤ 32767 * Real.sqrt 2 := by nlinarith
  have hub : 32767 * Real.sqrt 2 < 46340 := by nlinarith
  unfold quantizeRound
  rw [round_eq, Int.floor_eq_iff]
  constructor <;> push_cast <;> linarith

theorem numSamples_8_1_1 : numSamples ⟨8, 1, 1⟩ = 8 := by
  norm_num [numSamples, pyIntQ]; rfl

/-- C1 counterexample: at spec (sampleRate 8, duration 1, frequency 1) the
sample of index 1 is sin(pi/4) and the code quantizes it with truncation to
23169, while round-to-nearest of the scaled value is 23170; the claim
q(i) = round(s(i) * 32767) is therefore false on the code. -/
theorem quantize_differs_from_round :
    (toneSamples ⟨8, 1, 1⟩)[1]? = some 23169 ∧
      quantizeRound (sineSample ⟨8, 1, 1⟩ 1) = 23170 ∧
      (toneSamples ⟨8, 1, 1⟩)[1]? ≠ some (quantizeRound (sineSample ⟨8, 1, 1⟩ 1)) := by
  have h1 : (1 : ℕ) < numSamples ⟨8, 1, 1⟩ := by rw [numSamples_8_1_1]; omega
  have hval : (toneSamples ⟨8, 1, 1⟩)[1]? = some 23169 := by
    simp only [toneSamples, List.getElem?_map, List.getElem?_range h1,
      Option.map_some']
    rw [sineSample_8_1_1, quantize_sqrt2_div_two]
  have hround : quantizeRound (sineSample ⟨8, 1, 1⟩ 1) = 23170 := by
    rw [sineSample_8_1_1, quantizeRound_sqrt2_div_two]
  refine ⟨hval, hround, ?_⟩
  rw [hval, hround]
  simp

/-- C1 amended: for every spec and every index i < N, the generated sample
is the truncation toward zero (Python int conversion) of the scaled sine
value, q(i) = trunc(sin(2 pi frequencyHz i / sampleRate) * 32767), not its
round-to-nearest. -/
theorem toneSamples_eq_trunc (s : ToneSpec) (i : ℕ) (h : i < numSamples s) :
    (toneSamples s)[i]? =
      some (pyInt (Real.sin (2 * Real.pi * (s.frequencyHz : ℝ) * (i : ℝ) /
        ((s.sampleRate : ℤ) : ℝ)) * 32767)) := by
  simp only [toneSamples, List.getElem?_map, List.getElem?_range h,
    Option.map_some', quantize, sineSample]

/-- C1 amended witness: at the default spec and index 0. -/
theorem toneSamples_eq_trunc_witness :
    0 < numSamples ⟨44100, 3, 440⟩ ∧
      (toneSamples ⟨44100, 3, 440⟩)[0]? =
        some (pyInt (Real.sin (2 * Real.pi * ((440 : ℚ) : ℝ) * ((0 : ℕ) : ℝ) /
          (((44100 : ℤ) : ℤ) : ℝ)) * 32767)) := by
  have h : 0 < numSamples ⟨44100, 3, 440⟩ := by rw [numSamples_44100_3]; omega
  exact ⟨h, toneSamples_eq_trunc ⟨44100, 3, 440⟩ 0 h⟩

/-- C4: a spec with a non-positive field makes the writer fail with
InvalidArgument and leave the filesystem unchanged. -/
theorem invalid_spec_fails (s : ToneSpec) (path : String) (fs : FS)
    (h : ¬(0 < s.sampleRate ∧ 0 < s.durationSeconds ∧ 0 < s.frequencyHz)) :
    createTestAudio s path fs = (some WriterError.invalidArgument, fs) := by
  simp [createTestAudio, h]

/-- C4 witness: the scenario sampleRate = -1 fails and writes nothing. -/
theorem invalid_spec_fails_witness :
    ¬(0 < (-1 : ℤ) ∧ (0 : ℚ) < 3 ∧ (0 : ℚ) < 440) ∧
      createTestAudio ⟨-1, 3, 440⟩ "input.wav" fsEmpty =
        (some WriterError.invalidArgument, fsEmpty) := by
  have h : ¬(0 < (-1 : ℤ) ∧ (0 : ℚ) < 3 ∧ (0 : ℚ) < 440) := by norm_num
  exact ⟨h, invalid_spec_fails ⟨-1, 3, 440⟩ "input.wav" fsEmpty h⟩

/-- C6: writing twice with the identical spec and path gives the identical
filesystem, the file content is byte-identical and a function of the spec
alone. -/
theorem write_idempotent (s : ToneSpec) (path : String) (fs : FS)
    (h : 0 < s.sampleRate ∧ 0 < s.durationSeconds ∧ 0 < s.frequencyHz) :
    createTestAudio s path (createTestAudio s path fs).2 =
      (none, (createTestAudio s path fs).2) ∧
      (createTestAudio s path fs).2 path = some (wavBytes s) := by
  constructor
  · simp only [createTestAudio, if_pos h]
    refine Prod.ext rfl ?_
    funext p
    by_cases hp : p = path <;> simp [hp]
  · simp [createTestAudio, if_pos h]

/-- C6 witness: at the default spec and a concrete path. -/
theorem write_idempotent_witness :
    (0 < (44100 : ℤ) ∧ (0 : ℚ) < 3 ∧ (0 : ℚ) < 440) ∧
      createTestAudio ⟨44100, 3, 440⟩ "input.wav"
          (createTestAudio ⟨44100, 3, 440⟩ "input.wav" fsEmpty).2 =
        (none, (createTestAudio ⟨44100, 3, 440⟩ "input.wav" fsEmpty).2) ∧
      (createTestAudio ⟨44100, 3, 440⟩ "input.wav" fsEmpty).2 "input.wav" =
        some (wavBytes ⟨44100, 3, 440⟩) := by
  have h : 0 < (44100 : ℤ) ∧ (0 : ℚ) < 3 ∧ (0 : ℚ) < 440 := by norm_num
  exact ⟨h, write_idempotent ⟨44100, 3, 440⟩ "input.wav" fsEmpty h⟩

theorem wavHeader_length (s : ToneSpec) : (wavHeader s).length = 44 := rfl

theorem wavBytes_getElem?_head (s : ToneSpec) (n : ℕ) (h : n < 44) :
    (wavBytes s)[n]? = (wavHeader s)[n]? := by
  unfold wavBytes
  exact List.getElem?_append_left (by rw [wavHeader_length]; omega)

theorem wavHeader_at22 (s : ToneSpec) : (wavHeader s)[22]? = some 1 := rfl

theorem wavHeader_at23 (s : ToneSpec) : (wavHeader s)[22 + 1]? = some 0 := rfl

theorem wavHeader_at34 (s : ToneSpec) : (wavHeader s)[34]? = some 16 := rfl

theorem wavHeader_at35 (s : ToneSpec) : (wavHeader s)[34 + 1]? = some 0 := rfl

theorem wavHeader_at24 (s : ToneSpec) :
    (wavHeader s)[24]? = some (s.sampleRate.toNat % 256) := rfl

theorem wavHeader_at25 (s : ToneSpec) :
    (wavHeader s)[24 + 1]? = some (s.sampleRate.toNat / 256 % 256) := rfl

theorem wavHeader_at26 (s : ToneSpec) :
    (wavHeader s)[24 + 2]? = some (s.sampleRate.toNat / 65536 % 256) := rfl

theorem wavHeader_at27 (s : ToneSpec) :
    (wavHeader s)[24 + 3]? = some (s.sampleRate.toNat / 16777216 % 256) := rfl

/-- C7: decoding the produced WAV bytes yields channels = 1, bits per
sample = 16 and the sample rate of the input spec, and the PCM data
section after the 44-byte header is exactly the quantized samples
serialized little-endian in index order. -/
theorem wav_decode (s : ToneSpec) (h32 : s.sampleRate.toNat < 4294967296) :
    decodeChannels (wavBytes s) = some 1 ∧
      decodeBitsPerSample (wavBytes s) = some 16 ∧
      decodeSampleRate (wavBytes s) = some s.sampleRate.toNat ∧
      List.drop 44 (wavBytes s) = (toneSamples s).flatMap int16le := by
  refine ⟨?_, ?_, ?_, ?_⟩
  · unfold decodeChannels readU16
    rw [wavBytes_getElem?_head s 22 (by omega),
      wavBytes_getElem?_head s (22 + 1) (by omega),
      wavHeader_at22, wavHeader_at23]
  · unfold decodeBitsPerSample readU16
    rw [wavBytes_getElem?_head s 34 (by omega),
      wavBytes_getElem?_head s (34 + 1) (by omega),
      wavHeader_at34, wavHeader_at35]
  · unfold decodeSampleRate readU32
    rw [wavBytes_getElem?_head s 24 (by omega),
      wavBytes_getElem?_head s (24 + 1) (by omega),
      wavBytes_getElem?_head s (24 + 2) (by omega),
      wavBytes_getElem?_head s (24 + 3) (by omega),
      wavHeader_at24, wavHeader_at25, wavHeader_at26, wavHeader_at27]
    exact congrArg some (by omega)
  · unfold wavBytes
    rw [List.drop_left' (wavHeader_length s)]
    rfl

/-- C7 witness: the default spec decodes to mono 16-bit 44100 Hz. -/
theorem wav_decode_witness :
    ((44100 : ℤ)).toNat < 4294967296 ∧
      (decodeChannels (wavBytes ⟨44100, 3, 440⟩) = some 1 ∧
        decodeBitsPerSample (wavBytes ⟨44100, 3, 440⟩) = some 16 ∧
        decodeSampleRate (wavBytes ⟨44100, 3, 440⟩) = some ((44100 : ℤ)).toNat ∧
        List.drop 44 (wavBytes ⟨44100, 3, 440⟩) =
          (toneSamples ⟨44100, 3, 440⟩).flatMap int16le) :=
  ⟨by norm_num, wav_decode ⟨44100, 3, 440⟩ (by norm_num)⟩

/-- C9: when the sample count is zero the writer still succeeds and the
produced file is the 44-byte header with an empty PCM data section. -/
theorem zero_samples_header_only (s : ToneSpec) (path : String) (fs : FS)
    (hv : 0 < s.sampleRate ∧ 0 < s.durationSeconds ∧ 0 < s.frequencyHz)
    (h0 : numSamples s = 0) :
    (createTestAudio s path fs).1 = none ∧
      (createTestAudio s path fs).2 path = some (wavHeader s) ∧
      pcmData s = [] := by
  have hpcm : pcmData s = [] := by
    unfold pcmData toneSamples
    rw [h0]
    rfl
  have hbytes : wavBytes s = wavHeader s := by
    unfold wavBytes
    rw [hpcm, List.append_nil]
  refine ⟨?_, ?_, hpcm⟩ <;> simp [createTestAudio, hv, hbytes]

/-- C9 witness: sampleRate 1 with duration 1/2 gives zero samples and a
header-only file, not an error. -/
theorem zero_samples_header_only_witness :
    (0 < (1 : ℤ) ∧ (0 : ℚ) < 1/2 ∧ (0 : ℚ) < 1) ∧
      numSamples ⟨1, 1/2, 1⟩ = 0 ∧
      ((createTestAudio ⟨1, 1/2, 1⟩ "input.wav" fsEmpty).1 = none ∧
        (createTestAudio ⟨1, 1/2, 1⟩ "input.wav" fsEmpty).2 "input.wav" =
          some (wavHeader ⟨1, 1/2, 1⟩) ∧
        pcmData ⟨1, 1/2, 1⟩ = []) := by
  have hv : 0 < (1 : ℤ) ∧ (0 : ℚ) < 1/2 ∧ (0 : ℚ) < 1 := by norm_num
  have h0 : numSamples ⟨1, 1/2, 1⟩ = 0 := by norm_num [numSamples, pyIntQ]
  exact ⟨hv, h0, zero_samples_header_only ⟨1, 1/2, 1⟩ "input.wav" fsEmpty hv h0⟩

theorem toneSamples_8_1_1_at1 : (toneSamples ⟨8, 1, 1⟩)[1]? = some 23169 := by
  have h1 : (1 : ℕ) < numSamples ⟨8, 1, 1⟩ := by rw [numSamples_8_1_1]; omega
  simp only [toneSamples, List.getElem?_map, List.getElem?_range h1,
    Option.map_some']
  rw [sineSample_8_1_1, quantize_sqrt2_div_two]

theorem numSamples_8_1_2 : numSamples ⟨8, 1, 2⟩ = 8 := by
  norm_num [numSamples, pyIntQ]; rfl

theorem sineSample_8_1_2 : sineSample ⟨8, 1, 2⟩ 1 = 1 := by
  show Real.sin (2 * Real.pi * ((2 : ℚ) : ℝ) * ((1 : ℕ) : ℝ) / (((8 : ℤ) : ℤ) : ℝ)) = _
  rw [show (2 * Real.pi * ((2 : ℚ) : ℝ) * ((1 : ℕ) : ℝ) / (((8 : ℤ) : ℤ) : ℝ))
      = Real.pi / 2 by push_cast; ring]
  exact Real.sin_pi_div_two

theorem quantize_one : quantize 1 = 32767 := by
  unfold quantize pyInt
  rw [if_pos (by norm_num), one_mul]
  exact_mod_cast Int.floor_intCast 32767

theorem toneSamples_8_1_2_at1 : (toneSamples ⟨8, 1, 2⟩)[1]? = some 32767 := by
  have h1 : (1 : ℕ) < numSamples ⟨8, 1, 2⟩ := by rw [numSamples_8_1_2]; omega
  simp only [toneSamples, List.getElem?_map, List.getElem?_range h1,
    Option.map_some']
  rw [sineSample_8_1_2, quantize_one]

/-- C8: sampleRate, durationSeconds, frequencyHz and the output path are
caller-settable inputs of the writer, not fixed constants: changing any
one of them changes the produced output (the sample count, the generated
samples, the header sample-rate byte, or the location of the file). -/
theorem config_surface_settable :
    numSamples ⟨44100, 3, 440⟩ ≠ numSamples ⟨22050, 3, 440⟩ ∧
      numSamples ⟨44100, 3, 440⟩ ≠ numSamples ⟨44100, 2, 440⟩ ∧
      (toneSamples ⟨8, 1, 1⟩)[1]? ≠ (toneSamples ⟨8, 1, 2⟩)[1]? ∧
      (wavHeader ⟨44100, 3, 440⟩)[24]? ≠ (wavHeader ⟨22050, 3, 440⟩)[24]? ∧
      (createTestAudio ⟨44100, 3, 440⟩ "a.wav" fsEmpty).2 "a.wav" ≠
        (createTestAudio ⟨44100, 3, 440⟩ "b.wav" fsEmpty).2 "a.wav" := by
  have hv : 0 < (44100 : ℤ) ∧ (0 : ℚ) < 3 ∧ (0 : ℚ) < 440 := by norm_num
  refine ⟨?_, ?_, ?_, ?_, ?_⟩
  · rw [numSamples_44100_3, show numSamples ⟨22050, 3, 440⟩ = 66150 by
      norm_num [numSamples, pyIntQ]; rfl]
    omega
  · rw [numSamples_44100_3, show numSamples ⟨44100, 2, 440⟩ = 88200 by
      norm_num [numSamples, pyIntQ]; rfl]
    omega
  · rw [toneSamples_8_1_1_at1, toneSamples_8_1_2_at1]
    simp
  · rw [wavHeader_at24, wavHeader_at24]
    simp only [ne_eq, Option.some.injEq]
    decide
  · have h1 : (createTestAudio ⟨44100, 3, 440⟩ "a.wav" fsEmpty).2 "a.wav" =
        some (wavBytes ⟨44100, 3, 440⟩) := by
      unfold createTestAudio
      rw [if_pos hv]
      simp
    have h2 : (createTestAudio ⟨44100, 3, 440⟩ "b.wav" fsEmpty).2 "a.wav" =
        none := by
      unfold createTestAudio
      rw [if_pos hv]
      show (if "a.wav" = "b.wav" then some (wavBytes ⟨44100, 3, 440⟩)
        else fsEmpty "a.wav") = none
      rw [if_neg (by decide)]
      rfl
    rw [h1, h2]
    simp
